import Mathlib

/-!
Verification development for the Email-Assistant triage pipeline.

The Python sources embedded here (shallowly, as executable Lean functions):
  * `assistant/llm.py` — credential resolution (`get_client`) and the
    JSON-extraction step of `ask_json` (fence stripping, best-effort
    recovery, `json.loads`);
  * `assistant/schema.py` — the `TriageOut` pydantic model and its
    validation;
  * `assistant/providers/demo.py` — `DemoProvider.apply_labels` and
    `DemoProvider.create_draft` over the in-memory message list;
  * `assistant/pipeline.py` — `PRIORITY_TO_LABEL` and `triage_message`.

Strings are modelled as `List Char` where character-level scanning from the
Python code has to be reproduced (Python `str` is a sequence of code
points).  Whitespace predicates cover the ASCII whitespace characters; all
inputs exercised by the claims are ASCII.
-/

namespace EmailAssistant

/-! ### Python string ordering

`DemoProvider.apply_labels` stores `sorted(labels)`.  Python compares
strings lexicographically by code point, so we embed that comparison as a
computable Boolean relation on `List Char` / `String` and establish the
order axioms needed to reason about `sorted`.
-/

/-- Lexicographic code-point comparison of two character lists, the order
Python's `sorted` uses on `str`. -/
def lexLeCh : List Char → List Char → Bool
  | [], _ => true
  | _ :: _, [] => false
  | a :: t₁, b :: t₂ => if a = b then lexLeCh t₁ t₂ else decide (a.toNat < b.toNat)

theorem charToNat_inj {a b : Char} (h : a.toNat = b.toNat) : a = b := by
  have h1 := Char.ofNat_toNat a
  have h2 := Char.ofNat_toNat b
  rw [← h1, ← h2, h]

theorem lexLeCh_total : ∀ l₁ l₂ : List Char, lexLeCh l₁ l₂ = true ∨ lexLeCh l₂ l₁ = true
  | [], _ => Or.inl rfl
  | _ :: _, [] => Or.inr rfl
  | a :: t₁, b :: t₂ => by
    by_cases hab : a = b
    · subst hab
      have := lexLeCh_total t₁ t₂
      simpa [lexLeCh] using this
    · have hba : b ≠ a := fun e => hab e.symm
      have hne : a.toNat ≠ b.toNat := fun e => hab (charToNat_inj e)
      rcases Nat.lt_or_ge a.toNat b.toNat with h | h
      · left; simp [lexLeCh, hab, h]
      · right
        have : b.toNat < a.toNat := Nat.lt_of_le_of_ne h (fun e => hne e.symm)
        simp [lexLeCh, hba, this]

theorem lexLeCh_trans : ∀ l₁ l₂ l₃ : List Char,
    lexLeCh l₁ l₂ = true → lexLeCh l₂ l₃ = true → lexLeCh l₁ l₃ = true
  | [], _, _, _, _ => rfl
  | _ :: _, [], _, h, _ => by simp [lexLeCh] at h
  | _ :: _, _ :: _, [], _, h => by simp [lexLeCh] at h
  | a :: t₁, b :: t₂, c :: t₃, h₁, h₂ => by
    by_cases hab : a = b <;> by_cases hbc : b = c
    · subst hab; subst hbc
      simp only [lexLeCh, if_pos rfl] at h₁ h₂ ⊢
      exact lexLeCh_trans t₁ t₂ t₃ h₁ h₂
    · subst hab
      simp only [lexLeCh, if_pos rfl, if_neg hbc, decide_eq_true_eq] at h₂
      have hac : a ≠ c := fun e => Nat.lt_irrefl _ (e ▸ h₂)
      simp [lexLeCh, hac, h₂]
    · subst hbc
      simp only [lexLeCh, if_neg hab, decide_eq_true_eq] at h₁
      simp [lexLeCh, hab, h₁]
    · simp only [lexLeCh, if_neg hab, if_neg hbc, decide_eq_true_eq] at h₁ h₂
      have hlt : a.toNat < c.toNat := Nat.lt_trans h₁ h₂
      have hac : a ≠ c := fun e => Nat.lt_irrefl _ (e ▸ hlt)
      simp [lexLeCh, hac, hlt]

theorem lexLeCh_antisymm : ∀ l₁ l₂ : List Char,
    lexLeCh l₁ l₂ = true → lexLeCh l₂ l₁ = true → l₁ = l₂
  | [], [], _, _ => rfl
  | [], _ :: _, _, h => by simp [lexLeCh] at h
  | _ :: _, [], h, _ => by simp [lexLeCh] at h
  | a :: t₁, b :: t₂, h₁, h₂ => by
    by_cases hab : a = b
    · subst hab
      simp only [lexLeCh, if_pos rfl] at h₁ h₂
      rw [lexLeCh_antisymm t₁ t₂ h₁ h₂]
    · have hba : b ≠ a := fun e => hab e.symm
      simp only [lexLeCh, if_neg hab, if_neg hba, decide_eq_true_eq] at h₁ h₂
      exact absurd (Nat.lt_trans h₁ h₂) (Nat.lt_irrefl _)

/-- Python's `s1 <= s2` on strings, by code points. -/
def strLe (a b : String) : Bool := lexLeCh a.data b.data

/-- `strLe` as a relation, for use with `List.insertionSort` / `List.Sorted`. -/
def strLeRel (a b : String) : Prop := strLe a b = true

instance : DecidableRel strLeRel := fun a b => inferInstanceAs (Decidable (strLe a b = true))

instance : IsTotal String strLeRel := ⟨fun a b => lexLeCh_total a.data b.data⟩

instance : IsTrans String strLeRel :=
  ⟨fun a b c h₁ h₂ => lexLeCh_trans a.data b.data c.data h₁ h₂⟩

instance : IsAntisymm String strLeRel :=
  ⟨fun a b h₁ h₂ => String.toList_inj.mp (lexLeCh_antisymm a.data b.data h₁ h₂)⟩

/-- `sorted(set(l))` in Python: duplicates removed, result ascending. -/
def canonList (l : List String) : List String := List.insertionSort strLeRel l.dedup

theorem mem_canonList {x : String} {l : List String} : x ∈ canonList l ↔ x ∈ l := by
  unfold canonList
  rw [List.mem_insertionSort, List.mem_dedup]

theorem canonList_sorted (l : List String) : List.Sorted strLeRel (canonList l) :=
  List.sorted_insertionSort strLeRel _

theorem canonList_nodup (l : List String) : (canonList l).Nodup :=
  (List.perm_insertionSort strLeRel l.dedup).nodup_iff.mpr l.nodup_dedup

theorem canonList_ext {l₁ l₂ : List String} (h : ∀ x, x ∈ l₁ ↔ x ∈ l₂) :
    canonList l₁ = canonList l₂ := by
  apply List.eq_of_perm_of_sorted _ (canonList_sorted l₁) (canonList_sorted l₂)
  rw [List.perm_ext_iff_of_nodup (canonList_nodup l₁) (canonList_nodup l₂)]
  intro a
  rw [mem_canonList, mem_canonList]
  exact h a

/-! ### JSON values and `json.loads`

`ask_json` finishes with `json.loads(clean)`.  We embed a JSON value type
and a parser following CPython's `json` module scanner: JSON whitespace is
` \t\n\r`; strings support the standard escapes plus `\uXXXX` (modelled as
a single `Char.ofNat`, without surrogate-pair recombination, which no
claim exercises); numbers follow `(-?(?:0|[1-9]\d*))(\.\d+)?([eE][-+]?\d+)?`
and are kept as their raw text (no claim inspects numeric values); the
constants `NaN`/`Infinity`/`-Infinity` are accepted as Python does.
Objects are Python dicts: a repeated key overwrites the earlier entry.
-/

inductive Json where
  | null
  | bool (b : Bool)
  | num (raw : String)
  | str (s : String)
  | arr (elems : List Json)
  | obj (fields : List (String × Json))

/-- JSON whitespace, the characters CPython's `json` scanner skips. -/
def jsonIsWs (c : Char) : Bool := c = ' ' || c = '\t' || c = '\n' || c = '\r'

/-- Python-dict insertion: a repeated key overwrites in place. -/
def dictInsert (fields : List (String × Json)) (k : String) (v : Json) :
    List (String × Json) :=
  if fields.any (fun p => p.1 == k) then
    fields.map (fun p => if p.1 == k then (k, v) else p)
  else fields ++ [(k, v)]

/-- Python-dict lookup (`data["k"]` / `data.get("k")`); keys produced by
`dictInsert` are unique, so first match suffices. -/
def dictLookup (fields : List (String × Json)) (k : String) : Option Json :=
  List.lookup k fields

def hexVal (c : Char) : Option Nat :=
  if '0' ≤ c ∧ c ≤ '9' then some (c.toNat - '0'.toNat)
  else if 'a' ≤ c ∧ c ≤ 'f' then some (c.toNat - 'a'.toNat + 10)
  else if 'A' ≤ c ∧ c ≤ 'F' then some (c.toNat - 'A'.toNat + 10)
  else none

/-- The single-character string escapes of JSON. -/
def escTable (e : Char) : Option Char :=
  if e = '"' then some '"'
  else if e = '\\' then some '\\'
  else if e = '/' then some '/'
  else if e = 'b' then some '\x08'
  else if e = 'f' then some '\x0c'
  else if e = 'n' then some '\n'
  else if e = 'r' then some '\r'
  else if e = 't' then some '\t'
  else none

/-- Maximal number token at the head of `l`, per the scanner regex
`(-?(?:0|[1-9]\d*))(\.\d+)?([eE][-+]?\d+)?`; returns raw chars and rest. -/
def parseNumberTok (l : List Char) : Option (List Char × List Char) :=
  let sp : List Char × List Char :=
    match l with
    | '-' :: r => (['-'], r)
    | _ => ([], l)
  match sp.2 with
  | [] => none
  | c :: r =>
    if !c.isDigit then none
    else
      let ip : List Char × List Char :=
        if c = '0' then ([c], r)
        else
          let p := r.span Char.isDigit
          (c :: p.1, p.2)
      let fp : List Char × List Char :=
        match ip.2 with
        | '.' :: d :: rf =>
          if d.isDigit then
            let p := rf.span Char.isDigit
            ('.' :: d :: p.1, p.2)
          else ([], ip.2)
        | _ => ([], ip.2)
      let ep : List Char × List Char :=
        match fp.2 with
        | e :: s2 :: es2 =>
          if e = 'e' || e = 'E' then
            if s2 = '+' || s2 = '-' then
              match es2 with
              | d2 :: es3 =>
                if d2.isDigit then
                  let p := es3.span Char.isDigit
                  (e :: s2 :: d2 :: p.1, p.2)
                else ([], fp.2)
              | [] => ([], fp.2)
            else if s2.isDigit then
              let p := es2.span Char.isDigit
              (e :: s2 :: p.1, p.2)
            else ([], fp.2)
          else ([], fp.2)
        | _ => ([], fp.2)
      some (sp.1 ++ ip.1 ++ fp.1 ++ ep.1, ep.2)

/-- Parser mode: a JSON value, the body of a string literal (cursor past the
opening quote, accumulator reversed), the members of an object (cursor past
the opening quote of the next key), or the elements of an array. -/
inductive PMode where
  | value
  | strBody (acc : List Char)
  | members (acc : List (String × Json))
  | elems (acc : List Json)

/-- Fuel-indexed JSON parser; every recursive call decreases the fuel, so
it is structurally recursive and evaluates inside the kernel. -/
def parseF : Nat → PMode → List Char → Option (Json × List Char)
  | 0, _, _ => none
  | fuel + 1, .value, l =>
    match l.dropWhile jsonIsWs with
    | [] => none
    | c :: rest =>
      if c = '{' then
        match rest.dropWhile jsonIsWs with
        | '}' :: r => some (.obj [], r)
        | '"' :: r => parseF fuel (.members []) r
        | _ => none
      else if c = '[' then
        let ra := rest.dropWhile jsonIsWs
        match ra with
        | ']' :: r => some (.arr [], r)
        | _ => parseF fuel (.elems []) ra
      else if c = '"' then
        parseF fuel (.strBody []) rest
      else if "true".data.isPrefixOf (c :: rest) then
        some (.bool true, (c :: rest).drop 4)
      else if "false".data.isPrefixOf (c :: rest) then
        some (.bool false, (c :: rest).drop 5)
      else if "null".data.isPrefixOf (c :: rest) then
        some (.null, (c :: rest).drop 4)
      else
        match parseNumberTok (c :: rest) with
        | some (raw, r) => some (.num (String.mk raw), r)
        | none =>
          if "NaN".data.isPrefixOf (c :: rest) then
            some (.num "NaN", (c :: rest).drop 3)
          else if "Infinity".data.isPrefixOf (c :: rest) then
            some (.num "Infinity", (c :: rest).drop 8)
          else if "-Infinity".data.isPrefixOf (c :: rest) then
            some (.num "-Infinity", (c :: rest).drop 9)
          else none
  | fuel + 1, .strBody acc, l =>
    match l with
    | [] => none
    | c :: rest =>
      if c = '"' then some (.str (String.mk acc.reverse), rest)
      else if c = '\\' then
        match rest with
        | [] => none
        | e :: rest2 =>
          match escTable e with
          | some ec => parseF fuel (.strBody (ec :: acc)) rest2
          | none =>
            if e = 'u' then
              match rest2 with
              | h1 :: h2 :: h3 :: h4 :: rest3 =>
                match hexVal h1, hexVal h2, hexVal h3, hexVal h4 with
                | some a, some b, some c2, some d =>
                  parseF fuel (.strBody (Char.ofNat (((a * 16 + b) * 16 + c2) * 16 + d) :: acc)) rest3
                | _, _, _, _ => none
              | _ => none
            else none
      else if c.toNat < 32 then none
      else parseF fuel (.strBody (c :: acc)) rest
  | fuel + 1, .members acc, l =>
    match parseF fuel (.strBody []) l with
    | some (.str k, r1) =>
      match r1.dropWhile jsonIsWs with
      | ':' :: r2 =>
        match parseF fuel .value r2 with
        | some (v, r3) =>
          let acc2 := dictInsert acc k v
          match r3.dropWhile jsonIsWs with
          | ',' :: r4 =>
            match r4.dropWhile jsonIsWs with
            | '"' :: r5 => parseF fuel (.members acc2) r5
            | _ => none
          | '}' :: r4 => some (.obj acc2, r4)
          | _ => none
        | _ => none
      | _ => none
    | _ => none
  | fuel + 1, .elems acc, l =>
    match parseF fuel .value l with
    | some (v, r1) =>
      match r1.dropWhile jsonIsWs with
      | ',' :: r2 => parseF fuel (.elems (acc ++ [v])) r2
      | ']' :: r2 => some (.arr (acc ++ [v]), r2)
      | _ => none
    | _ => none

/-- `json.loads`: parse one value, then require only whitespace to follow. -/
def jsonLoads (l : List Char) : Option Json :=
  match parseF (4 * l.length + 16) .value l with
  | some (v, rest) => if (rest.dropWhile jsonIsWs).isEmpty then some v else none
  | none => none

/-! ### `assistant/llm.py` — JSON extraction

```python
clean = re.sub(r"^```(?:json)?\s*|\s*```$", "", resp.strip(), flags=re.I)
if not clean.lstrip().startswith(("{", "[")):
    m = re.search(r"(\{.*\}|\[.*\])\s*$", clean, flags=re.S)
    if m:
        clean = m.group(0).strip()
return json.loads(clean)
```
-/

/-- ASCII whitespace as stripped by Python's `str.strip` and matched by the
regex class `\s` (all inputs under consideration are ASCII). -/
def pyIsSpace (c : Char) : Bool :=
  c = ' ' || c = '\t' || c = '\n' || c = '\r' || c = '\x0b' || c = '\x0c'

/-- Python `str.strip()`. -/
def pyStrip (l : List Char) : List Char :=
  ((l.dropWhile pyIsSpace).reverse.dropWhile pyIsSpace).reverse

/-- The branch `^```(?:json)?\s*` of the fence-stripping substitution:
a leading fence, an optional case-insensitive `json` tag, then whitespace. -/
def dropFenceOpen (l : List Char) : List Char :=
  match l with
  | '`' :: '`' :: '`' :: rest =>
    let rest2 : List Char :=
      match rest with
      | a :: b :: c :: d :: tail =>
        if (a = 'j' || a = 'J') && (b = 's' || b = 'S') &&
            (c = 'o' || c = 'O') && (d = 'n' || d = 'N') then tail
        else rest
      | _ => rest
    rest2.dropWhile pyIsSpace
  | _ => l

/-- The branch `\s*```$` of the fence-stripping substitution: a trailing
fence and the whitespace run before it. -/
def dropFenceClose (l : List Char) : List Char :=
  match l.reverse with
  | '`' :: '`' :: '`' :: rest => (rest.dropWhile pyIsSpace).reverse
  | _ => l

/-- `clean.lstrip().startswith(("{", "["))`. -/
def headIsJsonStart (l : List Char) : Bool :=
  match l.dropWhile pyIsSpace with
  | c :: _ => c = '{' || c = '['
  | [] => false

/-- Does the branch `\{.*\}\s*$` (resp. `\[.*\]`) succeed from the character
after the opening one?  With a greedy `.*`, it succeeds exactly when the
last non-whitespace character of the remainder is the closing one. -/
def goodTail (close : Char) (tail : List Char) : Bool :=
  match tail.reverse.dropWhile pyIsSpace with
  | c :: _ => c = close
  | [] => false

/-- `re.search(r"(\{.*\}|\[.*\])\s*$", clean, flags=re.S)` followed by
`m.group(0).strip()`: the match starts at the leftmost `{` or `[` whose
branch succeeds, and `group(0)` runs to the end of the string. -/
def searchTail : List Char → Option (List Char)
  | [] => none
  | c :: rest =>
    if (c = '{' && goodTail '}' rest) || (c = '[' && goodTail ']' rest) then
      some (pyStrip (c :: rest))
    else searchTail rest

/-- The extraction step of `ask_json`: trim, strip fences, and if the text
does not open with `{`/`[`, fall back to the regex scan. -/
def extractCandidate (resp : List Char) : List Char :=
  let clean := dropFenceClose (dropFenceOpen (pyStrip resp))
  if headIsJsonStart clean then clean
  else
    match searchTail clean with
    | some g => g
    | none => clean

/-! ### `assistant/llm.py` — credential resolution and `ask_json`

```python
@lru_cache()
def _get_client(api_key=None):
    key = api_key or os.getenv("OPENAI_API_KEY")
    if not key:
        raise RuntimeError(...)
    return OpenAI(api_key=key)
```

`load_dotenv()` populates `os.environ` from a `.env` file (the secrets
store) only for names not already present, so `os.getenv` returns the
process environment value when set, else the `.env` value.  The error
taxonomy maps the `RuntimeError` to `MissingCredential`.
-/

inductive TriageError where
  | missingCredential
  | malformedResponse
  | schemaViolation (field : String)
  | keyError
  | notFound

/-- Python `a or b` on an optional string: `None` and `""` are falsy. -/
def pyOr (a b : Option String) : Option String :=
  match a with
  | some s => if s = "" then b else some s
  | none => b

/-- `os.getenv("OPENAI_API_KEY")` after `load_dotenv()`: the process
environment value if the variable is set (even to `""`), else the `.env`
value if present. -/
def effectiveEnv (envVar dotenvVal : Option String) : Option String :=
  match envVar with
  | some v => some v
  | none => dotenvVal

/-- `key = api_key or os.getenv(...)`. -/
def resolveKey (apiKey envVar dotenvVal : Option String) : Option String :=
  pyOr apiKey (effectiveEnv envVar dotenvVal)

/-- `_get_client` without its cache: raises (`MissingCredential`) when the
resolved key is `None` or empty, otherwise returns the key the client is
built from. -/
def getClientKey (apiKey envVar dotenvVal : Option String) : Except TriageError String :=
  match resolveKey apiKey envVar dotenvVal with
  | none => .error .missingCredential
  | some k => if k = "" then .error .missingCredential else .ok k

/-- The `@lru_cache()` on `_get_client`, keyed by the `api_key` argument.
Exceptions are not cached, so only successful resolutions appear. -/
structure LlmCache where
  entries : List (Option String × String)

/-- The response-processing tail of `ask_json`: extraction then
`json.loads`; a parse failure is the `MalformedResponse` of the spec. -/
def parsePhase (respText : List Char) : Except TriageError Json :=
  match jsonLoads (extractCandidate respText) with
  | some v => .ok v
  | none => .error .malformedResponse

/-- `ask_json`, with the network call abstracted: `respText` is the text
the backend would return.  Returns the cache after the call, whether a
network request was issued, and the outcome.  `_get_client` runs (or its
cached client is reused) strictly before the request is sent. -/
def ask_json (cache : LlmCache) (apiKey envVar dotenvVal : Option String)
    (respText : List Char) : LlmCache × Bool × Except TriageError Json :=
  match List.lookup apiKey cache.entries with
  | some _ => (cache, true, parsePhase respText)
  | none =>
    match getClientKey apiKey envVar dotenvVal with
    | .error e => (cache, false, .error e)
    | .ok k => (⟨(apiKey, k) :: cache.entries⟩, true, parsePhase respText)

/-! ### `assistant/schema.py`

```python
Priority = Literal["high", "medium", "low"]

class TriageOut(BaseModel):
    summary: str = Field(min_length=10, max_length=800)
    priority: Priority
    reasons: List[str]
    suggested_actions: List[Dict[str, Any]]
```

All four fields have no default, hence are required; `suggested_actions`
only demands a list of string-keyed records.  Validation of a non-dict
argument (`TriageOut(**data)` with a non-dict `data`) also fails; we fold
that case into the same error type.  The error carries the offending
field name.
-/

inductive Priority where
  | high
  | medium
  | low

def Priority.toStr : Priority → String
  | .high => "high"
  | .medium => "medium"
  | .low => "low"

/-- The closed `Literal["high", "medium", "low"]` check. -/
def priorityOfString (p : String) : Option Priority :=
  if p = "high" then some .high
  else if p = "medium" then some .medium
  else if p = "low" then some .low
  else none

structure TriageOut where
  summary : String
  priority : Priority
  reasons : List String
  suggested_actions : List (List (String × Json))

/-- A JSON array all of whose elements are strings (`List[str]`). -/
def allStrings : List Json → Option (List String)
  | [] => some []
  | .str s :: rest => (allStrings rest).map (fun t => s :: t)
  | _ => none

/-- A JSON array all of whose elements are objects (`List[Dict[str, Any]]`). -/
def allObjs : List Json → Option (List (List (String × Json)))
  | [] => some []
  | .obj f :: rest => (allObjs rest).map (fun t => f :: t)
  | _ => none

/-- `TriageOut(**data)`: pydantic validation of the parsed JSON. -/
def validate (j : Json) : Except TriageError TriageOut :=
  match j with
  | .obj fields =>
    match dictLookup fields "summary" with
    | some (.str s) =>
      if s.length < 10 then .error (.schemaViolation "summary")
      else if 800 < s.length then .error (.schemaViolation "summary")
      else
        match dictLookup fields "priority" with
        | some (.str p) =>
          match priorityOfString p with
          | none => .error (.schemaViolation "priority")
          | some pr =>
            match dictLookup fields "reasons" with
            | some (.arr rs) =>
              match allStrings rs with
              | none => .error (.schemaViolation "reasons")
              | some rs2 =>
                match dictLookup fields "suggested_actions" with
                | some (.arr acts) =>
                  match allObjs acts with
                  | none => .error (.schemaViolation "suggested_actions")
                  | some acts2 => .ok ⟨s, pr, rs2, acts2⟩
                | some _ => .error (.schemaViolation "suggested_actions")
                | none => .error (.schemaViolation "suggested_actions")
            | some _ => .error (.schemaViolation "reasons")
            | none => .error (.schemaViolation "reasons")
        | some _ => .error (.schemaViolation "priority")
        | none => .error (.schemaViolation "priority")
    | some _ => .error (.schemaViolation "summary")
    | none => .error (.schemaViolation "summary")
  | _ => .error (.schemaViolation "input")

/-! ### `assistant/providers/demo.py`

```python
def apply_labels(self, id, add, remove=None):
    m = self._find(id)                      # StopIteration if absent
    labels = set(m.get("labels", []))
    labels.update(add or [])
    for r in (remove or []):
        labels.discard(r)
    m["labels"] = sorted(labels)

def create_draft(self, thread_id, body):
    return f"draft_{thread_id}"
```
-/

/-- One message record of the demo inbox (the `Email` dataclass fields). -/
structure Msg where
  id : String
  thread_id : String
  when : Int
  sender : String
  subject : String
  body_text : String
  labels : List String

/-- The new label list stored by `apply_labels`:
`sorted((set(cur) | set(add)) - set(remove))`. -/
def newLabels (cur add rem : List String) : List String :=
  canonList ((cur ++ add).filter (fun x => decide (x ∉ rem)))

/-- `DemoProvider.apply_labels`: mutate the first message whose `id`
matches; `none` models the `StopIteration` escaping `_find` when the id is
absent. -/
def apply_labels : List Msg → String → List String → List String → Option (List Msg)
  | [], _, _, _ => none
  | m :: rest, i, add, rem =>
    if m.id = i then some ({ m with labels := newLabels m.labels add rem } :: rest)
    else (apply_labels rest i add rem).map (fun ms => m :: ms)

/-- `DemoProvider.create_draft`: touches no message, returns the synthetic
identifier `f"draft_{thread_id}"`. -/
def create_draft (msgs : List Msg) (thread_id _body : String) : List Msg × String :=
  (msgs, "draft_" ++ thread_id)

/-! ### `assistant/pipeline.py`

```python
PRIORITY_TO_LABEL = {"high": "EA/Priority/High",
                     "medium": "EA/Priority/Med",
                     "low": "EA/Priority/Low"}

def triage_message(p, msg):
    prompt = TRIAGE_PROMPT.format(...)
    data = ask_json(prompt)
    out = TriageOut(**data)
    labels_to_add = ["EA/Summary", PRIORITY_TO_LABEL[out.priority]]
    p.apply_labels(msg.id, add=labels_to_add)
    return out
```

The model call is external; `triage_message` below takes its outcome as a
parameter (`modelOutcome`), covering every response or raised error the
call can produce.  The result pairs the provider state after the call with
either the returned `TriageOut` or the propagated exception.
-/

def PRIORITY_TO_LABEL : List (String × String) :=
  [("high", "EA/Priority/High"),
   ("medium", "EA/Priority/Med"),
   ("low", "EA/Priority/Low")]

/-- The label the pipeline derives for a priority, read off the table. -/
def labelFor (pr : Priority) : String :=
  (List.lookup pr.toStr PRIORITY_TO_LABEL).getD ""

def triage_message (modelOutcome : Except TriageError Json) (msgs : List Msg)
    (msg : Msg) : List Msg × Except TriageError TriageOut :=
  match modelOutcome with
  | .error e => (msgs, .error e)
  | .ok data =>
    match validate data with
    | .error e => (msgs, .error e)
    | .ok out =>
      match List.lookup out.priority.toStr PRIORITY_TO_LABEL with
      | none => (msgs, .error .keyError)
      | some lab =>
        match apply_labels msgs msg.id ["EA/Summary", lab] [] with
        | none => (msgs, .error .notFound)
        | some msgs2 => (msgs2, .ok out)

/-! ### Shared lemmas -/

theorem allStrings_map (rs : List String) : allStrings (rs.map Json.str) = some rs := by
  induction rs with
  | nil => rfl
  | cons a t ih => simp [allStrings, ih]

theorem allObjs_map (acts : List (List (String × Json))) :
    allObjs (acts.map Json.obj) = some acts := by
  induction acts with
  | nil => rfl
  | cons a t ih => simp [allObjs, ih]

theorem lookup_priority (pr : Priority) :
    List.lookup pr.toStr PRIORITY_TO_LABEL = some (labelFor pr) := by
  cases pr <;> rfl

theorem mem_of_lookup {α β : Type} [BEq α] [LawfulBEq α] {a : α} {l : List (α × β)} {b : β}
    (h : List.lookup a l = some b) : (a, b) ∈ l := by
  induction l with
  | nil => simp [List.lookup] at h
  | cons p t ih =>
    obtain ⟨k, v⟩ := p
    simp only [List.lookup] at h
    cases hk : a == k with
    | true =>
      rw [hk] at h
      simp only [Option.some.injEq] at h
      subst h
      have : a = k := eq_of_beq hk
      subst this
      exact List.mem_cons_self _ _
    | false =>
      rw [hk] at h
      exact List.mem_cons_of_mem _ (ih h)

theorem newLabels_mem (cur add rem : List String) (x : String) :
    x ∈ newLabels cur add rem ↔ (x ∈ cur ∨ x ∈ add) ∧ x ∉ rem := by
  unfold newLabels
  rw [mem_canonList, List.mem_filter, List.mem_append, decide_eq_true_iff]

theorem newLabels_idem (cur add rem : List String) :
    newLabels (newLabels cur add rem) add rem = newLabels cur add rem := by
  unfold newLabels
  apply canonList_ext
  intro x
  simp only [List.mem_filter, List.mem_append, mem_canonList, decide_eq_true_iff]
  tauto

theorem newLabels_sorted (cur add rem : List String) :
    List.Sorted strLeRel (newLabels cur add rem) := canonList_sorted _

theorem newLabels_nodup (cur add rem : List String) :
    (newLabels cur add rem).Nodup := canonList_nodup _

/-! ### Claim C1 -/

/-- The model response of the best-effort-recovery example: prose on both
sides of the embedded object. -/
def c1RawText : String :=
  "Sure, here you go: \x7b\"summary\":\"s\",\"priority\":\"high\",\"reasons\":[],\"suggested_actions\":[]\x7d Thanks!"

/-- The same response without the trailing prose. -/
def c1TrailText : String :=
  "Sure, here you go: \x7b\"summary\":\"s\",\"priority\":\"high\",\"reasons\":[],\"suggested_actions\":[]\x7d"

/-- The embedded JSON object substring. -/
def c1Embedded : String :=
  "\x7b\"summary\":\"s\",\"priority\":\"high\",\"reasons\":[],\"suggested_actions\":[]\x7d"

/-- The value the embedded object denotes. -/
def c1Value : Json :=
  Json.obj [("summary", Json.str "s"), ("priority", Json.str "high"),
            ("reasons", Json.arr []), ("suggested_actions", Json.arr [])]

/-- Claim C1, counterexample: on the claim's own input the recovery regex,
being anchored to the end of the text (`\s*$`), finds nothing — the
trailing ` Thanks!` defeats it — so the candidate stays the full prose
text and `ask_json`'s parse step fails with `MalformedResponse` instead of
returning the embedded object. -/
theorem c1_counterexample :
    extractCandidate c1RawText.data = c1RawText.data ∧
    parsePhase c1RawText.data = Except.error TriageError.malformedResponse :=
  ⟨rfl, rfl⟩

/-- Claim C1 (amended): the best-effort recovery locates an embedded JSON
object only when it is the trailing content of the response — at most
whitespace may follow.  For the example input with the trailing prose
removed, extraction yields exactly the embedded object substring and the
extraction step returns its parsed value. -/
theorem c1_extraction_trailing :
    extractCandidate c1TrailText.data = c1Embedded.data ∧
    parsePhase c1TrailText.data = Except.ok c1Value ∧
    jsonLoads c1Embedded.data = some c1Value :=
  ⟨rfl, rfl, rfl⟩

/-! ### Claim C2 -/

/-- An action record of the unrecognized kind `archive`. -/
def c2Action : List (String × Json) := [("type", Json.str "archive")]

/-- A parsed response whose `suggested_actions` holds the `archive` record. -/
def c2Input : Json :=
  Json.obj [("summary", Json.str "a sufficiently long summary"),
            ("priority", Json.str "high"),
            ("reasons", Json.arr []),
            ("suggested_actions", Json.arr [Json.obj c2Action])]

/-- Claim C2, counterexample: validation accepts `{"type":"archive"}` —
`suggested_actions: List[Dict[str, Any]]` only requires a list of records
and never inspects the `type` field, so no `SchemaViolation` is raised. -/
theorem c2_counterexample :
    validate c2Input =
      Except.ok ⟨"a sufficiently long summary", Priority.high, [], [c2Action]⟩ :=
  rfl

/-- Claim C2 (amended): validation requires `suggested_actions` to be a
sequence of records but performs no check of each record's `type`; every
list of JSON objects — including records whose `type` is outside
`{label, reply_draft}`, such as `{"type":"archive"}` — is accepted and
returned unchanged. -/
theorem c2_actions_accepted (s : String) (pr : Priority) (rs : List String)
    (acts : List (List (String × Json)))
    (h1 : 10 ≤ s.length) (h2 : s.length ≤ 800) :
    validate (Json.obj
      [("summary", Json.str s), ("priority", Json.str pr.toStr),
       ("reasons", Json.arr (rs.map Json.str)),
       ("suggested_actions", Json.arr (acts.map Json.obj))]) =
      Except.ok ⟨s, pr, rs, acts⟩ := by
  have hs1 : ¬ s.length < 10 := Nat.not_lt.mpr h1
  have hs2 : ¬ 800 < s.length := Nat.not_lt.mpr h2
  cases pr <;>
    simp [validate, dictLookup, List.lookup, Priority.toStr, priorityOfString,
          allStrings_map, allObjs_map, hs1, hs2]

theorem c2_witness :
    validate (Json.obj
      [("summary", Json.str "a sufficiently long summary"),
       ("priority", Json.str "high"),
       ("reasons", Json.arr []),
       ("suggested_actions", Json.arr [Json.obj [("type", Json.str "archive")]])]) =
      Except.ok ⟨"a sufficiently long summary", Priority.high, [], [[("type", Json.str "archive")]]⟩ :=
  c2_actions_accepted "a sufficiently long summary" Priority.high []
    [[("type", Json.str "archive")]] (by decide) (by decide)

/-! ### Claim C7 -/

/-- Valid summary/priority/reasons, `suggested_actions` absent. -/
def c7NoActs : Json :=
  Json.obj [("summary", Json.str "a sufficiently long summary"),
            ("priority", Json.str "high"), ("reasons", Json.arr [])]

/-- Valid summary/priority/actions, `reasons` absent. -/
def c7NoReasons : Json :=
  Json.obj [("summary", Json.str "a sufficiently long summary"),
            ("priority", Json.str "high"), ("suggested_actions", Json.arr [])]

/-- Claim C7, counterexample: both `reasons` and `suggested_actions` are
declared without defaults, hence required; validation rejects the input
when either is absent instead of treating it as the empty sequence. -/
theorem c7_counterexample :
    validate c7NoActs = Except.error (TriageError.schemaViolation "suggested_actions") ∧
    validate c7NoReasons = Except.error (TriageError.schemaViolation "reasons") :=
  ⟨rfl, rfl⟩

/-- Claim C7 (amended): `reasons` and `suggested_actions` are required
fields of `TriageOut`; for any parsed object with a valid `summary` and
`priority`, validation fails with a `SchemaViolation` naming the absent
field rather than defaulting it to the empty sequence. -/
theorem c7_missing_fields_rejected (fields : List (String × Json)) (s : String) (pr : Priority)
    (hs : dictLookup fields "summary" = some (Json.str s))
    (h1 : 10 ≤ s.length) (h2 : s.length ≤ 800)
    (hp : dictLookup fields "priority" = some (Json.str pr.toStr)) :
    (dictLookup fields "reasons" = none →
      validate (Json.obj fields) = Except.error (TriageError.schemaViolation "reasons")) ∧
    (∀ rs rs2, dictLookup fields "reasons" = some (Json.arr rs) → allStrings rs = some rs2 →
      dictLookup fields "suggested_actions" = none →
      validate (Json.obj fields) = Except.error (TriageError.schemaViolation "suggested_actions")) := by
  have hs1 : ¬ s.length < 10 := Nat.not_lt.mpr h1
  have hs2 : ¬ 800 < s.length := Nat.not_lt.mpr h2
  constructor
  · intro hr
    cases pr <;>
      simp [validate, hs, hp, hr, hs1, hs2, priorityOfString, Priority.toStr]
  · intro rs rs2 hr hstr hsa
    cases pr <;>
      simp [validate, hs, hp, hr, hstr, hsa, hs1, hs2, priorityOfString, Priority.toStr]

theorem c7_witness :
    validate (Json.obj [("summary", Json.str "a sufficiently long summary"),
                        ("priority", Json.str "low")]) =
      Except.error (TriageError.schemaViolation "reasons") :=
  (c7_missing_fields_rejected
    [("summary", Json.str "a sufficiently long summary"), ("priority", Json.str "low")]
    "a sufficiently long summary" Priority.low rfl (by decide) (by decide) rfl).1 rfl

/-! ### Claim C3 -/

/-- A parsed response that validates successfully. -/
def c3Data : Json :=
  Json.obj [("summary", Json.str "a sufficiently long summary"),
            ("priority", Json.str "high"), ("reasons", Json.arr []),
            ("suggested_actions", Json.arr [])]

/-- The `TriageOut` that `c3Data` validates to. -/
def c3Out : TriageOut := ⟨"a sufficiently long summary", Priority.high, [], []⟩

/-- A message whose id is absent from the (empty) demo source. -/
def c3Msg : Msg := ⟨"m1", "t1", 0, "alice@example.com", "subject", "body", []⟩

/-- Claim C3, counterexample: the model output validates (the `TriageOut`
exists), yet because `apply_labels` fails — the message id is not in the
source, so `_find`'s `StopIteration` escapes — `triage_message` never
reaches its `return out`: the caller receives the error only, not the
already-validated triage result. -/
theorem c3_counterexample :
    validate c3Data = Except.ok c3Out ∧
    triage_message (Except.ok c3Data) [] c3Msg = ([], Except.error TriageError.notFound) :=
  ⟨rfl, rfl⟩

/-- Claim C3 (amended): a failure of the label-application step aborts
`triage_message` before its `return`: whenever validation succeeded but
`apply_labels` fails, the error propagates to the caller and the computed
`TriageOut` is not delivered (the source is left unchanged). -/
theorem c3_label_failure_propagates (data : Json) (msgs : List Msg) (msg : Msg)
    (out : TriageOut) (hv : validate data = Except.ok out)
    (ha : apply_labels msgs msg.id ["EA/Summary", labelFor out.priority] [] = none) :
    triage_message (Except.ok data) msgs msg = (msgs, Except.error TriageError.notFound) := by
  have hl := lookup_priority out.priority
  simp [triage_message, hv, hl, ha]

theorem c3_witness :
    triage_message (Except.ok c3Data) [] c3Msg = ([], Except.error TriageError.notFound) :=
  c3_label_failure_propagates c3Data [] c3Msg c3Out rfl rfl

/-! ### Claim C4 -/

/-- Claim C4 (confirmed): `DemoProvider.apply_labels` is idempotent — if a
call on a present id rewrites the source to `msgs2`, the same call on
`msgs2` leaves it at `msgs2`: `sorted((set(l) | add) - remove)` is a fixed
point of itself. -/
theorem c4_apply_labels_idempotent (msgs msgs2 : List Msg) (i : String)
    (add rem : List String) (h : apply_labels msgs i add rem = some msgs2) :
    apply_labels msgs2 i add rem = some msgs2 := by
  induction msgs generalizing msgs2 with
  | nil => simp [apply_labels] at h
  | cons m rest ih =>
    by_cases hm : m.id = i
    · rw [apply_labels, if_pos hm, Option.some.injEq] at h
      subst h
      rw [apply_labels, if_pos hm, newLabels_idem]
    · rw [apply_labels, if_neg hm] at h
      cases hr : apply_labels rest i add rem with
      | none => rw [hr] at h; simp at h
      | some rest2 =>
        rw [hr] at h
        simp only [Option.map_some', Option.some.injEq] at h
        subst h
        rw [apply_labels, if_neg hm, ih rest2 hr]
        rfl

/-- The claim's example message, labels initially empty. -/
def c4Msg : Msg := ⟨"m4", "t4", 2, "dave@example.com", "s4", "b4", []⟩

/-- The same message after `apply_labels(id, add={"A","B"})`. -/
def c4MsgAB : Msg := ⟨"m4", "t4", 2, "dave@example.com", "s4", "b4", ["A", "B"]⟩

theorem c4_witness :
    apply_labels [c4Msg] "m4" ["A", "B"] [] = some [c4MsgAB] ∧
    apply_labels [c4MsgAB] "m4" ["A", "B"] [] = some [c4MsgAB] :=
  ⟨rfl, c4_apply_labels_idempotent [c4Msg] [c4MsgAB] "m4" ["A", "B"] [] rfl⟩

/-! ### Claim C5 -/

/-- Claim C5 (confirmed): when the model-client step raises
(`MissingCredential`, `MalformedResponse`, or any other error) or the
validation step rejects the parsed JSON, `triage_message` propagates that
error and returns the source's message list exactly as it was: no
`apply_labels` call happens, so no label set changes. -/
theorem c5_failure_no_mutation (msgs : List Msg) (msg : Msg) :
    (∀ e : TriageError, triage_message (Except.error e) msgs msg = (msgs, Except.error e)) ∧
    (∀ (data : Json) (e : TriageError), validate data = Except.error e →
      triage_message (Except.ok data) msgs msg = (msgs, Except.error e)) := by
  constructor
  · intro e; rfl
  · intro data e hv
    simp [triage_message, hv]

/-- A demo message carrying a pre-existing label. -/
def c5Msg : Msg := ⟨"m5", "t5", 5, "bob@example.com", "s5", "b5", ["Keep"]⟩

theorem c5_witness :
    triage_message (Except.error TriageError.missingCredential) [c5Msg] c5Msg =
      ([c5Msg], Except.error TriageError.missingCredential) ∧
    triage_message (Except.ok (Json.str "oops")) [c5Msg] c5Msg =
      ([c5Msg], Except.error (TriageError.schemaViolation "input")) :=
  ⟨(c5_failure_no_mutation [c5Msg] c5Msg).1 TriageError.missingCredential,
   (c5_failure_no_mutation [c5Msg] c5Msg).2 (Json.str "oops")
     (TriageError.schemaViolation "input") rfl⟩

/-! ### Claim C6 -/

/-- Claim C6 (confirmed): `PRIORITY_TO_LABEL` is total over the priority
enumeration with a non-empty label for each value, and a successful
`triage_message` run applies exactly the marker label `"EA/Summary"` plus
that single mapped label to the message. -/
theorem c6_priority_label_total (p : Priority) :
    ∃ lab : String,
      List.lookup p.toStr PRIORITY_TO_LABEL = some lab ∧ lab ≠ "" ∧
      ∀ (modelOutcome : Except TriageError Json) (msgs : List Msg) (msg : Msg)
        (msgs2 : List Msg) (out : TriageOut),
        triage_message modelOutcome msgs msg = (msgs2, Except.ok out) →
        out.priority = p →
        apply_labels msgs msg.id ["EA/Summary", lab] [] = some msgs2 := by
  refine ⟨labelFor p, lookup_priority p, ?_, ?_⟩
  · cases p <;> decide
  · intro modelOutcome msgs msg msgs2 out htri hp
    cases modelOutcome with
    | error e => simp [triage_message] at htri
    | ok data =>
      simp only [triage_message] at htri
      cases hv : validate data with
      | error e => rw [hv] at htri; simp at htri
      | ok out2 =>
        rw [hv] at htri
        simp only [lookup_priority out2.priority] at htri
        cases ha : apply_labels msgs msg.id ["EA/Summary", labelFor out2.priority] [] with
        | none => rw [ha] at htri; simp at htri
        | some m2 =>
          rw [ha] at htri
          simp only [Prod.mk.injEq, Except.ok.injEq] at htri
          obtain ⟨hm2, hout⟩ := htri
          subst hm2
          subst hout
          rw [← hp]
          exact ha

/-- A demo message the pipeline triages successfully. -/
def c6Msg : Msg := ⟨"m6", "t6", 1, "carol@example.com", "s6", "b6", []⟩

/-- A high-priority model response for `c6Msg`. -/
def c6Data : Json :=
  Json.obj [("summary", Json.str "another sufficiently long summary"),
            ("priority", Json.str "high"), ("reasons", Json.arr []),
            ("suggested_actions", Json.arr [])]

/-- `c6Data` validated. -/
def c6Out : TriageOut := ⟨"another sufficiently long summary", Priority.high, [], []⟩

/-- `c6Msg` after the pipeline applied the derived labels. -/
def c6MsgDone : Msg :=
  ⟨"m6", "t6", 1, "carol@example.com", "s6", "b6", ["EA/Priority/High", "EA/Summary"]⟩

theorem c6_witness :
    ∃ lab : String,
      List.lookup Priority.high.toStr PRIORITY_TO_LABEL = some lab ∧ lab ≠ "" ∧
      apply_labels [c6Msg] c6Msg.id ["EA/Summary", lab] [] = some [c6MsgDone] := by
  obtain ⟨lab, h1, h2, h3⟩ := c6_priority_label_total Priority.high
  exact ⟨lab, h1, h2, h3 (Except.ok c6Data) [c6Msg] c6Msg [c6MsgDone] c6Out rfl rfl⟩

/-! ### Claim C8 -/

/-- Python-falsy credential slot: unset, or set to the empty string. -/
def noKey (a : Option String) : Prop := a = none ∨ a = some ""

/-- Cache entries of `_get_client`'s `lru_cache` record successful
resolutions for their argument (exceptions are never cached). -/
def cacheConsistent (cache : LlmCache) (envVar dotenvVal : Option String) : Prop :=
  ∀ a k, (a, k) ∈ cache.entries → getClientKey a envVar dotenvVal = Except.ok k

/-- Claim C8 (confirmed): when no API key is resolvable — the explicit
argument, the environment variable, and the `.env` secrets store are all
unset or empty — `ask_json` raises `MissingCredential` with the network
flag still `false`: `_get_client` runs and raises strictly before
`client.chat.completions.create` is reached, and the cache (consistent
with the current environment) cannot contain a client for the argument. -/
theorem c8_missing_credential (cache : LlmCache) (apiKey envVar dotenvVal : Option String)
    (respText : List Char) (hcache : cacheConsistent cache envVar dotenvVal)
    (h1 : noKey apiKey) (h2 : noKey envVar) (h3 : noKey dotenvVal) :
    ask_json cache apiKey envVar dotenvVal respText =
      (cache, false, Except.error TriageError.missingCredential) := by
  have hres : getClientKey apiKey envVar dotenvVal = Except.error TriageError.missingCredential := by
    rcases h1 with rfl | rfl <;> rcases h2 with rfl | rfl <;> rcases h3 with rfl | rfl <;> rfl
  have hlook : List.lookup apiKey cache.entries = none := by
    cases hl : List.lookup apiKey cache.entries with
    | none => rfl
    | some k =>
      have hk := hcache apiKey k (mem_of_lookup hl)
      rw [hres] at hk
      exact absurd hk (by simp)
  simp [ask_json, hlook, hres]

theorem c8_witness :
    ask_json ⟨[]⟩ none none none "\x7b\x7d".data =
      (⟨[]⟩, false, Except.error TriageError.missingCredential) :=
  c8_missing_credential ⟨[]⟩ none none none "\x7b\x7d".data
    (fun _ _ h => absurd h (List.not_mem_nil _)) (Or.inl rfl) (Or.inl rfl) (Or.inl rfl)

/-! ### Claim C9 -/

/-- Claim C9 (confirmed): after any successful `apply_labels` call, from
any prior source state — hence after every sequence of such calls — the
stored `labels` of the affected message (the first record with the given
id) is duplicate-free and ascending in Python's code-point string order:
`sorted(set(...))` is the only write to the field. -/
theorem c9_labels_canonical (msgs : List Msg) (i : String) (add rem : List String)
    (msgs2 : List Msg) (h : apply_labels msgs i add rem = some msgs2) :
    ∃ m2 : Msg, msgs2.find? (fun m => m.id == i) = some m2 ∧
      List.Sorted strLeRel m2.labels ∧ m2.labels.Nodup := by
  induction msgs generalizing msgs2 with
  | nil => simp [apply_labels] at h
  | cons m rest ih =>
    by_cases hm : m.id = i
    · rw [apply_labels, if_pos hm, Option.some.injEq] at h
      subst h
      refine ⟨{ m with labels := newLabels m.labels add rem }, ?_, newLabels_sorted _ _ _,
        newLabels_nodup _ _ _⟩
      simp [List.find?, hm]
    · rw [apply_labels, if_neg hm] at h
      cases hr : apply_labels rest i add rem with
      | none => rw [hr] at h; simp at h
      | some rest2 =>
        rw [hr] at h
        simp only [Option.map_some', Option.some.injEq] at h
        subst h
        obtain ⟨m2, hfind, hsort, hnd⟩ := ih rest2 hr
        refine ⟨m2, ?_, hsort, hnd⟩
        have hb : (m.id == i) = false := beq_eq_false_iff_ne.mpr hm
        simp [List.find?, hb, hfind]

/-- A message with duplicated, unsorted labels in the stored record. -/
def c9Msg : Msg := ⟨"m9", "t9", 3, "erin@example.com", "s9", "b9", ["B", "A", "B"]⟩

/-- `c9Msg` after `apply_labels(id, add={"A","C"}, remove={"B"})`. -/
def c9MsgDone : Msg := ⟨"m9", "t9", 3, "erin@example.com", "s9", "b9", ["A", "C"]⟩

theorem c9_witness :
    ∃ m2 : Msg, List.find? (fun m => m.id == "m9") [c9MsgDone] = some m2 ∧
      List.Sorted strLeRel m2.labels ∧ m2.labels.Nodup :=
  c9_labels_canonical [c9Msg] "m9" ["A", "C"] ["B"] [c9MsgDone] rfl

/-! ### Claim C10 -/

/-- Claim C10 (confirmed): `DemoProvider.create_draft` mutates nothing —
every message record of the source is exactly as before — and returns the
deterministic identifier `"draft_" + thread_id`, so two calls with the
same `thread_id` (even with different bodies) return the same id. -/
theorem c10_create_draft_pure (msgs : List Msg) (tid body other : String) :
    create_draft msgs tid body = (msgs, "draft_" ++ tid) ∧
    (create_draft msgs tid body).2 = (create_draft msgs tid other).2 :=
  ⟨rfl, rfl⟩

end EmailAssistant
